import Mathlib

/-!
# gonuntius: connection-establishment state machine

A shallow embedding of `src/nuntius.go` and `src/remoteconn.go`.

Conventions of the embedding.

* A Go `[]byte` is a `List Nat`; `bytes.Compare(a, b) == 0` is equality of lists.
* A Go `int` is an `Int` (no arithmetic is performed on correlation ids).
* A Go `error` is `Option GoError`, `none` being `nil`.
* Application callbacks are opaque: a callback is a natural number naming it, and calling it is
  recorded as an `Event` in the trace of the operation.
* Requests to the gateway (`connRemote.X(...)`, `remoteAPI.X(...)`) and calls on the transport
  (`rpcConn.StopHandling()`) are recorded as `Event`s as well.
* A Go run-time panic (nil dereference, call of a nil func, explicit `panic`) is recorded in the
  `panic` field of the result; the statements after it are not executed.
* The handles `conn`, `connRemote`, `rpcConn` of `connImpl` and `remoteAPI` of
  `incomingConnection` belong to the transport collaborator; the embedding covers sessions on
  which the transport has assigned them.
* Notifications of one session are handled one at a time, as the transport dispatches them.
-/

namespace Gonuntius

/-- Go `[]byte`. -/
abbrev Bytes := List Nat

/-- Name of an application callback `func(RemoteConnection, error)`. -/
abbrev CbId := Nat

/-- Go `error` value that is not nil, identified by its message (`errors.New(msg)`). -/
structure GoError where
  msg : String
deriving DecidableEq, Repr

/-- Go `errors.New`. -/
def errors_New (msg : String) : GoError := ⟨msg⟩

/-- The struct `remoteConnection` of `remoteconn.go`; the field `conn` (the session whose socket
the stream uses) is a transport handle and is left out. -/
structure remoteConnection where
  remoteID : Bytes
deriving DecidableEq, Repr

/-- The method `remoteConnection.GetRemoteID`. -/
def remoteConnection.GetRemoteID (conn : remoteConnection) : Bytes := conn.remoteID

/-- The struct `pendingConn` of `nuntius.go`. -/
structure pendingConn where
  fn : CbId
  remoteID : Bytes
deriving DecidableEq, Repr

/-- The struct `incomingConnection` of `remoteconn.go`; `acceptCallback = none` is the nil func. -/
structure incomingConnection where
  isHandled : Bool
  connID : Bytes
  remoteID : Bytes
  acceptCallback : Option CbId
deriving DecidableEq, Repr

/-- Observable effects of the operations, in the order in which they happen. -/
inductive Event where
  /-- The request `Register(appID, registrationKey, publicID, fn)` sent on `connRemote`, the
  arguments in the order in which they are passed. -/
  | register (a1 a2 a3 : Bytes) (fn : Nat)
  /-- The request `Authenticate(appID, publicID, secretKey, fn)` sent on `connRemote`. -/
  | authenticate (appID publicID secretKey : Bytes) (fn : Nat)
  /-- The request `ConnectTo(publicID, pendingID, reply)` sent on `connRemote`. -/
  | connectTo (publicID : Bytes) (pendingID : Int)
  /-- The request `RejectConnection(connID, func(error) {})` sent on `remoteAPI`. -/
  | rejectConnection (connID : Bytes)
  /-- The request `AcceptConnection(connID, reply)` sent on `connRemote`. -/
  | acceptConnection (connID : Bytes)
  /-- The call `NewConnection()`, with the error `net.Dial` returned. -/
  | newConnection (err : Option GoError)
  /-- The call `rpcConn.StopHandling()`. -/
  | stopHandling
  /-- A call `fn(rc, err)` of an application callback `func(RemoteConnection, error)`. -/
  | callback (fn : CbId) (rc : Option remoteConnection) (err : Option GoError)
  /-- A call `fn(&incConn)` of the incoming-connection handler named `name`. -/
  | handler (name : Nat)
  /-- A call `fn()` of the ready callback named `name`. -/
  | readyFn (name : Nat)
  /-- A call `fn(err)` of an application callback `func(error)`. -/
  | errorFn (fn : Nat) (err : Option GoError)
deriving DecidableEq, Repr

/-- A ready callback `func()`: an application callback, or the closure
`func() { connImpl.acceptConnection(conn) }` that `Accept` registers, which captures the
incoming connection. -/
inductive ReadyFn where
  | app (name : Nat)
  | acceptHook (incConn : incomingConnection)
deriving DecidableEq, Repr

/-- An incoming-connection handler `func(IncomingConnection)`, as the sequence of calls it makes on
the interface `IncomingConnection`, each continuation receiving the value the call returned. -/
inductive HandlerProg where
  | ret
  | isHandled (k : Bool → HandlerProg)
  | getRemoteID (k : Bytes → HandlerProg)
  | accept (fn : CbId) (k : Option GoError → HandlerProg)
  | reject (k : Option GoError → HandlerProg)

/-- A registered incoming-connection handler. -/
structure Handler where
  name : Nat
  prog : HandlerProg

/-- The struct `connImpl` of `nuntius.go`. `startStreaming = some p` is the closure assigned by
`InitializeConnection`, which captures `p`, the value of `acceptingConn` at that time; the table
`pendingConn` (a `sync.Map`) is an association list read from the front. -/
structure connImpl where
  appID : Bytes
  publicID : Bytes
  ready : Bool
  readyFns : List ReadyFn
  incConnFns : List Handler
  acceptingConn : Option incomingConnection
  isStreaming : Bool
  acceptReturned : Bool
  startStreaming : Option incomingConnection
  pendingConn : List (Int × pendingConn)

/-- The session `connImpl{conn: conn}` that `NewConnection` builds: every other field is zero. -/
def connImpl.fresh : connImpl :=
  { appID := [], publicID := [], ready := false, readyFns := [], incConnFns := [],
    acceptingConn := none, isStreaming := false, acceptReturned := false,
    startStreaming := none, pendingConn := [] }

/-- Result of an operation of a session. -/
structure SRes where
  conn : connImpl
  events : List Event
  panic : Option String

/-! ## The pending table (`sync.Map`) -/

/-- Go `sync.Map.Load`. -/
def Load : List (Int × pendingConn) → Int → Option pendingConn
  | [], _ => none
  | (k, v) :: m, id => if k = id then some v else Load m id

/-- Go `sync.Map.LoadOrStore`: the table afterwards and whether the key was present. -/
def LoadOrStore (m : List (Int × pendingConn)) (id : Int) (v : pendingConn) :
    List (Int × pendingConn) × Bool :=
  match Load m id with
  | some _ => (m, true)
  | none => ((id, v) :: m, false)

/-- Go `sync.Map.Delete`. -/
def Delete : List (Int × pendingConn) → Int → List (Int × pendingConn)
  | [], _ => []
  | (k, v) :: m, id => if k = id then Delete m id else (k, v) :: Delete m id

/-! ## Sessions: `nuntius.go` -/

/-- The method `connImpl.Register`. -/
def connImpl.Register (conn : connImpl) (appID publicID registrationKey : Bytes) (fn : Nat) :
    SRes :=
  if !conn.ready then ⟨conn, [], none⟩
  else ⟨conn, [Event.register appID registrationKey publicID fn], none⟩

/-- The method `connImpl.Authenticate`. -/
def connImpl.Authenticate (conn : connImpl) (appID publicID secretKey : Bytes) (fn : Nat) :
    SRes :=
  if !conn.ready then ⟨conn, [], none⟩
  else
    ⟨{ conn with appID := publicID, publicID := publicID },
      [Event.authenticate appID publicID secretKey fn], none⟩

/-- The reply of the gateway to the request `Authenticate`: the callback passed with the request
is `fn` itself, so the reply calls `fn(err)` and runs no statement of the session. -/
def connImpl.authenticateReply (conn : connImpl) (fn : Nat) (err : Option GoError) : SRes :=
  ⟨conn, [Event.errorFn fn err], none⟩

/-- The method `connImpl.getPendingConnection`; only `*pendingConn` values are ever stored, so the
type assertion holds and its panic is not reachable. -/
def connImpl.getPendingConnection (conn : connImpl) (id : Int) :
    Option Gonuntius.pendingConn :=
  Load conn.pendingConn id

/-- Result of `ConnectTo`. -/
structure ConnectRes where
  conn : connImpl
  pendingID : Int
  events : List Event

/-- The method `connImpl.ConnectTo`; the list holds the values `rand.Int()` returns, one per turn
of the loop, and `none` is a loop that has used them all without leaving. -/
def connImpl.ConnectTo (conn : connImpl) (publicID : Bytes) (fn : CbId) :
    List Int → Option ConnectRes
  | [] => none
  | pendingID :: draws =>
    match LoadOrStore conn.pendingConn pendingID ⟨fn, publicID⟩ with
    | (m, found) =>
      if !found then
        some ⟨{ conn with pendingConn := m }, pendingID, [Event.connectTo publicID pendingID]⟩
      else connImpl.ConnectTo conn publicID fn draws

/-- The closure `func(err error)` that `ConnectTo` passes to the gateway request, which captures
`pendingID` and `fn`. -/
def connImpl.connectReply (conn : connImpl) (pendingID : Int) (fn : CbId)
    (err : Option GoError) : SRes :=
  match err with
  | some e =>
    ⟨{ conn with pendingConn := Delete conn.pendingConn pendingID },
      [Event.callback fn none (some e)], none⟩
  | none => ⟨conn, [], none⟩

/-- The method `connImpl.acceptConnection`. -/
def connImpl.acceptConnection (conn : connImpl) (incConn : incomingConnection) : SRes :=
  match conn.acceptingConn with
  | some _ => ⟨conn, [], none⟩
  | none =>
    ⟨{ conn with acceptingConn := some incConn }, [Event.acceptConnection incConn.connID], none⟩

/-- The statements of the reply closure of `acceptConnection` after its `if err != nil` block. -/
def connImpl.acceptReturn (conn : connImpl) (before : List Event) : SRes :=
  let conn1 := { conn with acceptReturned := true }
  match conn1.startStreaming with
  | some _ => ⟨{ conn1 with isStreaming := true }, before ++ [Event.stopHandling], none⟩
  | none => ⟨conn1, before, none⟩

/-- The closure `func(err error)` that `acceptConnection` passes to the gateway request, which
captures `incConn`. -/
def connImpl.acceptReply (conn : connImpl) (incConn : incomingConnection)
    (err : Option GoError) : SRes :=
  match err with
  | none => connImpl.acceptReturn conn []
  | some e =>
    match incConn.acceptCallback with
    | none => ⟨conn, [], some "call of nil func"⟩
    | some fn => connImpl.acceptReturn conn [Event.callback fn none (some e)]

/-- A call `fn()` of a ready callback. -/
def runReadyFn (conn : connImpl) : ReadyFn → SRes
  | ReadyFn.app name => ⟨conn, [Event.readyFn name], none⟩
  | ReadyFn.acceptHook incConn => connImpl.acceptConnection conn incConn

/-- The method `connImpl.OnReady`. -/
def connImpl.OnReady (conn : connImpl) (fn : ReadyFn) : SRes :=
  let conn1 := { conn with readyFns := conn.readyFns ++ [fn] }
  if conn1.ready then runReadyFn conn1 fn else ⟨conn1, [], none⟩

/-- The method `connImpl.OnIncomingConnection`. -/
def connImpl.OnIncomingConnection (conn : connImpl) (fn : Handler) : connImpl :=
  { conn with incConnFns := conn.incConnFns ++ [fn] }

/-- The loop `for _, fn := range nuntiusConn.readyFns { fn() }`. -/
def runReadyFns (conn : connImpl) : List ReadyFn → SRes
  | [] => ⟨conn, [], none⟩
  | fn :: fns =>
    let r := runReadyFn conn fn
    match r.panic with
    | some _ => r
    | none =>
      let r2 := runReadyFns r.conn fns
      ⟨r2.conn, r.events ++ r2.events, r2.panic⟩

/-- The closure `func(err error)` that `NewConnection` passes to `remote.Version(2, ...)`. -/
def versionReply (conn : connImpl) (err : Option GoError) : SRes :=
  match err with
  | some _ => ⟨conn, [], none⟩
  | none =>
    let conn1 := { conn with ready := true }
    runReadyFns conn1 conn1.readyFns

/-- The method `nuntiusClientAPI.InitializeConnection`. -/
def InitializeConnection (connID : Bytes) (conn : connImpl) : SRes :=
  match conn.acceptingConn with
  | none => ⟨conn, [], some "nil pointer dereference"⟩
  | some pendingConn =>
    if pendingConn.connID = connID then
      if conn.acceptReturned then
        ⟨{ conn with isStreaming := true, startStreaming := some pendingConn },
          [Event.stopHandling], none⟩
      else ⟨{ conn with startStreaming := some pendingConn }, [], none⟩
    else ⟨conn, [], none⟩

/-- The method `nuntiusClientAPI.ErrorConnection`. -/
def ErrorConnection (connID : Bytes) (err : String) (conn : connImpl) : SRes :=
  match conn.acceptingConn with
  | none => ⟨conn, [], some "nil pointer dereference"⟩
  | some pendingConn =>
    if pendingConn.connID = connID then
      match pendingConn.acceptCallback with
      | none => ⟨conn, [], some "call of nil func"⟩
      | some fn => ⟨conn, [Event.callback fn none (some (errors_New err))], none⟩
    else ⟨conn, [], none⟩

/-- A call of the closure `conn.startStreaming` that `InitializeConnection` assigned, which
captured `pendingConn`. -/
def callStartStreaming (conn : connImpl) (pendingConn : incomingConnection) : SRes :=
  match conn.acceptingConn with
  | none => ⟨conn, [], some "nil pointer dereference"⟩
  | some acceptingConn =>
    match acceptingConn.acceptCallback with
    | none => ⟨conn, [], some "call of nil func"⟩
    | some fn => ⟨conn, [Event.callback fn (some ⟨pendingConn.remoteID⟩) none], none⟩

/-- The statements of the goroutine of `NewConnection` after `service.HandleConnection` has
returned `err`. -/
def afterHandleConnection (conn : connImpl) (err : Option GoError) : SRes :=
  match err with
  | some _ => ⟨conn, [], none⟩
  | none =>
    match conn.startStreaming with
    | some pendingConn => callStartStreaming conn pendingConn
    | none => ⟨conn, [], some "should have started streaming, but streaming is nil"⟩

/-- What the transport delivers to a session that has issued an accept request. -/
inductive Signal where
  /-- The reply of the gateway to the request `AcceptConnection`. -/
  | acceptReply (err : Option GoError)
  /-- The notification `initializeConnection(connID)`. -/
  | initializeConnection (connID : Bytes)
  /-- The notification `errorConnection(connID, message)`. -/
  | errorConnection (connID : Bytes) (err : String)
deriving DecidableEq, Repr

/-- The handling of one signal; the reply closure exists only once `acceptConnection` has sent
the request, and it captured the connection that is then `acceptingConn`. -/
def handleSignal (conn : connImpl) : Signal → SRes
  | Signal.acceptReply err =>
    match conn.acceptingConn with
    | some incConn => connImpl.acceptReply conn incConn err
    | none => ⟨conn, [], none⟩
  | Signal.initializeConnection connID => InitializeConnection connID conn
  | Signal.errorConnection connID err => ErrorConnection connID err conn

/-- Modelled from the spec: the dispatch of `service.HandleConnection` of the transport
collaborator `autorpc`, whose code is not part of the repository. Section 6 of the spec: the
transport delivers the notifications of a session in order, and has a primitive that halts
further dispatch on the session. Signals are handled one at a time; once a handler has called
`StopHandling` no further signal is handled, `HandleConnection` returns nil and the goroutine
of `NewConnection` runs `afterHandleConnection`. A panic ends the run. When the list is used up
the transport is still waiting. -/
def HandleConnection (conn : connImpl) : List Signal → SRes
  | [] => ⟨conn, [], none⟩
  | s :: rest =>
    let r := handleSignal conn s
    match r.panic with
    | some _ => r
    | none =>
      if Event.stopHandling ∈ r.events then
        let r2 := afterHandleConnection r.conn none
        ⟨r2.conn, r.events ++ r2.events, r2.panic⟩
      else
        let r2 := HandleConnection r.conn rest
        ⟨r2.conn, r.events ++ r2.events, r2.panic⟩

/-- The function `NewConnection` up to its return, given the error `net.Dial` returned. -/
def NewConnection (dial : Option GoError) : Except GoError connImpl :=
  match dial with
  | some e => Except.error e
  | none => Except.ok connImpl.fresh

/-! ## Incoming connections: `remoteconn.go` -/

/-- The method `incomingConnection.IsHandled`. -/
def incomingConnection.IsHandled (conn : incomingConnection) : Bool := conn.isHandled

/-- The method `incomingConnection.GetRemoteID`. -/
def incomingConnection.GetRemoteID (conn : incomingConnection) : Bytes := conn.remoteID

/-- Result of `Accept`: the connection afterwards, the error returned, the trace, and the session
opened, with the ready callback registered on it. -/
structure AcceptRes where
  incConn : incomingConnection
  err : Option GoError
  events : List Event
  newConn : Option connImpl

/-- The method `incomingConnection.Accept`, given the error `net.Dial` returns to
`NewConnection`. -/
def incomingConnection.Accept (conn : incomingConnection) (fn : CbId)
    (dial : Option GoError) : AcceptRes :=
  if conn.isHandled then
    ⟨conn, some (errors_New "connection already handled"), [], none⟩
  else
    let conn1 := { conn with acceptCallback := some fn, isHandled := true }
    match NewConnection dial with
    | Except.error e => ⟨conn1, some e, [Event.newConnection (some e)], none⟩
    | Except.ok newConn =>
      let r := connImpl.OnReady newConn (ReadyFn.acceptHook conn1)
      ⟨conn1, none, Event.newConnection none :: r.events, some r.conn⟩

/-- Result of `Reject`. -/
structure RejectRes where
  incConn : incomingConnection
  err : Option GoError
  events : List Event

/-- The method `incomingConnection.Reject`. -/
def incomingConnection.Reject (conn : incomingConnection) : RejectRes :=
  if conn.isHandled then
    ⟨conn, some (errors_New "connection already handled"), []⟩
  else ⟨conn, none, [Event.rejectConnection conn.connID]⟩

/-- A call on the interface `IncomingConnection`. -/
inductive Call where
  | accept (fn : CbId)
  | reject
deriving DecidableEq, Repr

/-- What one call returned and caused. -/
structure CallRes where
  err : Option GoError
  events : List Event
  newConn : Option connImpl

/-- A sequence of calls of `Accept` and `Reject` on one incoming connection, one after the
other: the result of each call, and the connection in the end. -/
def runCalls (conn : incomingConnection) (dial : Option GoError) :
    List Call → List CallRes × incomingConnection
  | [] => ([], conn)
  | Call.accept fn :: cs =>
    let a := incomingConnection.Accept conn fn dial
    let r := runCalls a.incConn dial cs
    (⟨a.err, a.events, a.newConn⟩ :: r.1, r.2)
  | Call.reject :: cs =>
    let a := incomingConnection.Reject conn
    let r := runCalls a.incConn dial cs
    (⟨a.err, a.events, none⟩ :: r.1, r.2)

/-- Result of a handler, or of the loop over the handlers: the connection afterwards, the trace
and the sessions opened. -/
structure HRes where
  incConn : incomingConnection
  events : List Event
  newConns : List connImpl

/-- A run of a handler on the connection it was given. `Accept` sets `isHandled` before it calls
`NewConnection`, so at most one call on a connection reaches `net.Dial`, and one outcome of
`net.Dial` is all a run needs. -/
def HandlerProg.run : HandlerProg → incomingConnection → Option GoError → HRes
  | HandlerProg.ret, conn, _ => ⟨conn, [], []⟩
  | HandlerProg.isHandled k, conn, dial => (k conn.IsHandled).run conn dial
  | HandlerProg.getRemoteID k, conn, dial => (k conn.GetRemoteID).run conn dial
  | HandlerProg.accept fn k, conn, dial =>
    let a := incomingConnection.Accept conn fn dial
    let r := (k a.err).run a.incConn dial
    ⟨r.incConn, a.events ++ r.events, a.newConn.toList ++ r.newConns⟩
  | HandlerProg.reject k, conn, dial =>
    let a := incomingConnection.Reject conn
    let r := (k a.err).run a.incConn dial
    ⟨r.incConn, a.events ++ r.events, r.newConns⟩

/-- The loop `for _, fn := range conn.incConnFns { fn(&incConn) }`. -/
def runHandlers : List Handler → incomingConnection → Option GoError → HRes
  | [], incConn, _ => ⟨incConn, [], []⟩
  | fn :: fns, incConn, dial =>
    let r := fn.prog.run incConn dial
    let r2 := runHandlers fns r.incConn dial
    ⟨r2.incConn, Event.handler fn.name :: (r.events ++ r2.events), r.newConns ++ r2.newConns⟩

/-- Result of the handling of an `incomingConnection` notification. -/
structure ArbRes where
  conn : connImpl
  incConn : incomingConnection
  events : List Event
  newConns : List connImpl
  panic : Option String

/-- The method `nuntiusClientAPI.IncomingConnection` (the diagnostic `fmt.Println` left out),
given the error `net.Dial` returns to a `NewConnection` made while it runs. In the branch where
`getPendingConnection` returned `nil, false`, the statement after `incConn.Reject()` reads
`pendingConn.fn` through the nil pointer. -/
def IncomingConnection (connID : Bytes) (pendingID : Int) (remoteID : Bytes) (conn : connImpl)
    (dial : Option GoError) : ArbRes :=
  let incConn : incomingConnection :=
    { remoteID := remoteID, connID := connID, isHandled := false, acceptCallback := none }
  if remoteID = conn.publicID then
    match conn.getPendingConnection pendingID with
    | some pendingConn =>
      let conn1 := { conn with pendingConn := Delete conn.pendingConn pendingID }
      let incConn1 := { incConn with remoteID := pendingConn.remoteID }
      let a := incomingConnection.Accept incConn1 pendingConn.fn dial
      ⟨conn1, a.incConn, a.events, a.newConn.toList, none⟩
    | none =>
      let a := incomingConnection.Reject incConn
      ⟨conn, a.incConn, a.events, [], some "nil pointer dereference"⟩
  else
    let r := runHandlers conn.incConnFns incConn dial
    if !r.incConn.IsHandled then
      let a := incomingConnection.Reject r.incConn
      ⟨conn, a.incConn, r.events ++ a.events, r.newConns, none⟩
    else ⟨conn, r.incConn, r.events, r.newConns, none⟩

/-- The names of the handlers called, in the order of the calls. -/
def handlerCalls : List Event → List Nat
  | [] => []
  | Event.handler name :: es => name :: handlerCalls es
  | _ :: es => handlerCalls es

/-- What happens to the ready callbacks of a session: an application registers one, or the
gateway replies to the `Version` request. -/
inductive ReadyStep where
  | onReady (fn : ReadyFn)
  | versionReply (err : Option GoError)
deriving DecidableEq, Repr

/-- One step on the ready callbacks. -/
def readyStep (conn : connImpl) : ReadyStep → SRes
  | ReadyStep.onReady fn => connImpl.OnReady conn fn
  | ReadyStep.versionReply err => versionReply conn err

/-- A sequence of steps on the ready callbacks of one session, one after the other; a panic ends
the run. -/
def runReadySteps (conn : connImpl) : List ReadyStep → SRes
  | [] => ⟨conn, [], none⟩
  | s :: ss =>
    let r := readyStep conn s
    match r.panic with
    | some _ => r
    | none =>
      let r2 := runReadySteps r.conn ss
      ⟨r2.conn, r.events ++ r2.events, r2.panic⟩

/-- The registration `OnReady(fn)` of the application callback named `n`. -/
def registration (n : Nat) : ReadyStep := ReadyStep.onReady (ReadyFn.app n)

/-- Whether the run of a handler on the connection returns without a call of `Accept` or of
`Reject`. -/
def HandlerProg.quiet : HandlerProg → incomingConnection → Bool
  | HandlerProg.ret, _ => true
  | HandlerProg.isHandled k, conn => (k conn.IsHandled).quiet conn
  | HandlerProg.getRemoteID k, conn => (k conn.GetRemoteID).quiet conn
  | HandlerProg.accept _ _, _ => false
  | HandlerProg.reject _, _ => false

/-- A step of a session in the handoff: a ready hook calls `acceptConnection(incConn)`, or the
transport delivers a signal. -/
inductive HandoffStep where
  | acceptConnection (incConn : incomingConnection)
  | signal (s : Signal)
deriving DecidableEq, Repr

/-- One step of the handoff. -/
def handoffStep (conn : connImpl) : HandoffStep → SRes
  | HandoffStep.acceptConnection incConn => connImpl.acceptConnection conn incConn
  | HandoffStep.signal s => handleSignal conn s

/-- The session after a sequence of steps of the handoff. Every sequence is run to its end, also
past a panic or a call of `StopHandling` (after which the transport delivers nothing more), so
the states a session can reach are among those this function returns. -/
def runHandoffSteps (conn : connImpl) : List HandoffStep → connImpl
  | [] => conn
  | s :: ss => runHandoffSteps (handoffStep conn s).conn ss

/-! ## Names used in the examples -/

/-- The bytes of "alice". -/
def alice : Bytes := [97, 108, 105, 99, 101]

/-- The bytes of "bob". -/
def bob : Bytes := [98, 111, 98]

/-- The bytes of "c1", a connection id. -/
def c1 : Bytes := [99, 49]

/-- A fresh incoming connection, as `IncomingConnection` builds it. -/
def freshIncoming (connID remoteID : Bytes) : incomingConnection :=
  { remoteID := remoteID, connID := connID, isHandled := false, acceptCallback := none }

/-! ## Lemmas on the pending table -/

theorem Load_Delete_self (m : List (Int × pendingConn)) (id : Int) :
    Load (Delete m id) id = none := by
  induction m with
  | nil => rfl
  | cons e m ih =>
    obtain ⟨k, v⟩ := e
    by_cases h : k = id
    · simp [Delete, h, ih]
    · simp [Delete, h, Load, ih]

theorem Load_Delete_ne (m : List (Int × pendingConn)) (id j : Int) (hj : j ≠ id) :
    Load (Delete m id) j = Load m j := by
  induction m with
  | nil => rfl
  | cons e m ih =>
    obtain ⟨k, v⟩ := e
    by_cases h : k = id
    · subst h
      have hkj : ¬ k = j := fun hk => hj hk.symm
      simp [Delete, Load, hkj, ih]
    · by_cases hkj : k = j
      · subst hkj
        simp [Delete, h, Load]
      · simp [Delete, h, Load, hkj, ih]

/-! ## Lemmas on traces -/

theorem handlerCalls_append (xs ys : List Event) :
    handlerCalls (xs ++ ys) = handlerCalls xs ++ handlerCalls ys := by
  induction xs with
  | nil => rfl
  | cons e xs ih => cases e <;> simp [handlerCalls, ih]

theorem handlerCalls_Accept (conn : incomingConnection) (fn : CbId) (dial : Option GoError) :
    handlerCalls (incomingConnection.Accept conn fn dial).events = [] := by
  unfold incomingConnection.Accept
  cases conn.isHandled <;> cases dial <;>
    simp [NewConnection, connImpl.OnReady, connImpl.fresh, handlerCalls]

theorem handlerCalls_Reject (conn : incomingConnection) :
    handlerCalls (incomingConnection.Reject conn).events = [] := by
  unfold incomingConnection.Reject
  cases conn.isHandled <;> simp [handlerCalls]

theorem handlerCalls_run (prog : HandlerProg) (conn : incomingConnection)
    (dial : Option GoError) : handlerCalls (prog.run conn dial).events = [] := by
  induction prog generalizing conn with
  | ret => rfl
  | isHandled k ih => exact ih _ conn
  | getRemoteID k ih => exact ih _ conn
  | accept fn k ih =>
    simp only [HandlerProg.run, handlerCalls_append, handlerCalls_Accept, ih, List.append_nil]
  | reject k ih =>
    simp only [HandlerProg.run, handlerCalls_append, handlerCalls_Reject, ih, List.append_nil]

theorem handlerCalls_runHandlers (fns : List Handler) (incConn : incomingConnection)
    (dial : Option GoError) :
    handlerCalls (runHandlers fns incConn dial).events = fns.map Handler.name := by
  induction fns generalizing incConn with
  | nil => rfl
  | cons fn fns ih =>
    simp [runHandlers, handlerCalls, handlerCalls_append, handlerCalls_run, ih]

/-! ## Lemmas on `ConnectTo` -/

theorem ConnectTo_some (conn : connImpl) (t : Bytes) (cb : CbId) (draws : List Int)
    (r : ConnectRes) (h : conn.ConnectTo t cb draws = some r) :
    Load conn.pendingConn r.pendingID = none ∧
    r.conn = { conn with pendingConn := (r.pendingID, ⟨cb, t⟩) :: conn.pendingConn } ∧
    r.events = [Event.connectTo t r.pendingID] ∧
    ∃ pre post, draws = pre ++ r.pendingID :: post ∧
      ∀ d ∈ pre, Load conn.pendingConn d ≠ none := by
  induction draws with
  | nil => simp [connImpl.ConnectTo] at h
  | cons d draws ih =>
    cases hd : Load conn.pendingConn d with
    | none =>
      simp [connImpl.ConnectTo, LoadOrStore, hd] at h
      subst h
      exact ⟨hd, rfl, rfl, [], draws, rfl, by simp⟩
    | some v =>
      simp [connImpl.ConnectTo, LoadOrStore, hd] at h
      obtain ⟨h1, h2, h3, pre, post, h4, h5⟩ := ih h
      refine ⟨h1, h2, h3, d :: pre, post, by simp [h4], ?_⟩
      intro x hx
      rcases List.mem_cons.mp hx with hx | hx
      · simp [hx, hd]
      · exact h5 x hx

theorem ConnectTo_isSome (conn : connImpl) (t : Bytes) (cb : CbId) (draws : List Int)
    (h : ∃ d ∈ draws, Load conn.pendingConn d = none) :
    ∃ r, conn.ConnectTo t cb draws = some r := by
  induction draws with
  | nil => simp at h
  | cons d draws ih =>
    cases hd : Load conn.pendingConn d with
    | none =>
      refine ⟨⟨{ conn with pendingConn := (d, ⟨cb, t⟩) :: conn.pendingConn }, d,
        [Event.connectTo t d]⟩, ?_⟩
      simp [connImpl.ConnectTo, LoadOrStore, hd]
    | some v =>
      obtain ⟨x, hx, hxa⟩ := h
      rcases List.mem_cons.mp hx with hx | hx
      · rw [hx, hd] at hxa
        cases hxa
      · obtain ⟨r, hr⟩ := ih ⟨x, hx, hxa⟩
        exact ⟨r, by simpa [connImpl.ConnectTo, LoadOrStore, hd] using hr⟩

theorem Load_cons (m : List (Int × pendingConn)) (k j : Int) (v : pendingConn) :
    Load ((k, v) :: m) j = if j = k then some v else Load m j := by
  by_cases h : k = j
  · simp [Load, h]
  · have h2 : ¬ j = k := fun e => h e.symm
    simp [Load, h, h2]

/-! ## Lemmas on the handoff -/

theorem handoff_accept_first (conn : connImpl) (c : incomingConnection) (fn : CbId)
    (hacc : conn.acceptingConn = some c) (hcb : c.acceptCallback = some fn)
    (hstart : conn.startStreaming = none) :
    HandleConnection conn [Signal.acceptReply none, Signal.initializeConnection c.connID] =
      ⟨{ conn with acceptReturned := true, isStreaming := true, startStreaming := some c },
        [Event.stopHandling, Event.callback fn (some ⟨c.remoteID⟩) none], none⟩ := by
  simp [HandleConnection, handleSignal, hacc, connImpl.acceptReply, connImpl.acceptReturn,
    hstart, InitializeConnection, afterHandleConnection, callStartStreaming, hcb]

theorem handoff_init_first (conn : connImpl) (c : incomingConnection) (fn : CbId)
    (hacc : conn.acceptingConn = some c) (hcb : c.acceptCallback = some fn)
    (hret : conn.acceptReturned = false) :
    HandleConnection conn [Signal.initializeConnection c.connID, Signal.acceptReply none] =
      ⟨{ conn with acceptReturned := true, isStreaming := true, startStreaming := some c },
        [Event.stopHandling, Event.callback fn (some ⟨c.remoteID⟩) none], none⟩ := by
  simp [HandleConnection, handleSignal, hacc, connImpl.acceptReply, connImpl.acceptReturn,
    hret, InitializeConnection, afterHandleConnection, callStartStreaming, hcb]

/-! ## Lemmas on the ready callbacks -/

theorem runReadyFns_app (conn : connImpl) (ns : List Nat) :
    runReadyFns conn (ns.map ReadyFn.app) = ⟨conn, ns.map Event.readyFn, none⟩ := by
  induction ns with
  | nil => rfl
  | cons n ns ih => simp [runReadyFns, runReadyFn, ih]

theorem runReadySteps_notReady (conn : connImpl) (ns : List Nat) (h : conn.ready = false) :
    runReadySteps conn (ns.map registration) =
      ⟨{ conn with readyFns := conn.readyFns ++ ns.map ReadyFn.app }, [], none⟩ := by
  induction ns generalizing conn with
  | nil => simp [runReadySteps]
  | cons n ns ih =>
    have hstep : readyStep conn (registration n) =
        ⟨{ conn with readyFns := conn.readyFns ++ [ReadyFn.app n] }, [], none⟩ := by
      simp [readyStep, registration, connImpl.OnReady, h]
    have e := ih { conn with readyFns := conn.readyFns ++ [ReadyFn.app n] } h
    simp only [List.map_cons, runReadySteps, hstep]
    rw [e]
    simp

theorem runReadySteps_ready (conn : connImpl) (ns : List Nat) (h : conn.ready = true) :
    runReadySteps conn (ns.map registration) =
      ⟨{ conn with readyFns := conn.readyFns ++ ns.map ReadyFn.app },
        ns.map Event.readyFn, none⟩ := by
  induction ns generalizing conn with
  | nil => simp [runReadySteps]
  | cons n ns ih =>
    have hstep : readyStep conn (registration n) =
        ⟨{ conn with readyFns := conn.readyFns ++ [ReadyFn.app n] },
          [Event.readyFn n], none⟩ := by
      simp [readyStep, registration, connImpl.OnReady, h, runReadyFn]
    have e := ih { conn with readyFns := conn.readyFns ++ [ReadyFn.app n] } h
    simp only [List.map_cons, runReadySteps, hstep]
    rw [e]
    simp

theorem runReadySteps_append (conn : connImpl) (xs ys : List ReadyStep)
    (h : (runReadySteps conn xs).panic = none) :
    runReadySteps conn (xs ++ ys) =
      ⟨(runReadySteps (runReadySteps conn xs).conn ys).conn,
        (runReadySteps conn xs).events ++ (runReadySteps (runReadySteps conn xs).conn ys).events,
        (runReadySteps (runReadySteps conn xs).conn ys).panic⟩ := by
  induction xs generalizing conn with
  | nil => simp [runReadySteps]
  | cons x xs ih =>
    cases hp : (readyStep conn x).panic with
    | some msg =>
      simp [runReadySteps, hp] at h
    | none =>
      simp only [runReadySteps, hp] at h
      have e := ih _ h
      simp only [List.cons_append, runReadySteps, hp]
      simp [e]

/-! ## Lemmas on handlers that do not claim -/

theorem run_of_quiet (prog : HandlerProg) (conn : incomingConnection) (dial : Option GoError)
    (h : prog.quiet conn = true) : prog.run conn dial = ⟨conn, [], []⟩ := by
  induction prog with
  | ret => rfl
  | isHandled k ih => exact ih _ h
  | getRemoteID k ih => exact ih _ h
  | accept fn k _ => simp [HandlerProg.quiet] at h
  | reject k _ => simp [HandlerProg.quiet] at h

theorem runHandlers_of_quiet (fns : List Handler) (conn : incomingConnection)
    (dial : Option GoError) (h : ∀ fn ∈ fns, fn.prog.quiet conn = true) :
    runHandlers fns conn dial = ⟨conn, fns.map (fun fn => Event.handler fn.name), []⟩ := by
  induction fns with
  | nil => rfl
  | cons fn fns ih =>
    have h1 := run_of_quiet fn.prog conn dial (h fn (List.mem_cons_self _ _))
    have h2 := ih (fun g hg => h g (List.mem_cons_of_mem _ hg))
    simp [runHandlers, h1, h2]

/-! ## Lemmas on the steps of the handoff -/

theorem handoffStep_invariant (conn : connImpl) (s : HandoffStep)
    (h : conn.isStreaming = true → conn.acceptReturned = true ∧ conn.startStreaming ≠ none) :
    (handoffStep conn s).conn.isStreaming = true →
      (handoffStep conn s).conn.acceptReturned = true ∧
      (handoffStep conn s).conn.startStreaming ≠ none := by
  cases s with
  | acceptConnection incConn =>
    simp only [handoffStep, connImpl.acceptConnection]
    split <;> exact h
  | signal sig =>
    cases sig with
    | acceptReply err =>
      simp only [handoffStep, handleSignal]
      split
      · cases err with
        | none =>
          simp only [connImpl.acceptReply, connImpl.acceptReturn]
          split <;> simp_all
        | some e =>
          simp only [connImpl.acceptReply]
          split
          · exact h
          · simp only [connImpl.acceptReturn]
            split <;> simp_all
      · exact h
    | initializeConnection connID =>
      simp only [handoffStep, handleSignal, InitializeConnection]
      split
      · exact h
      · split
        · split <;> simp_all
        · exact h
    | errorConnection connID err =>
      simp only [handoffStep, handleSignal, ErrorConnection]
      split
      · exact h
      · split
        · split <;> exact h
        · exact h

theorem handoffStep_streaming (conn : connImpl) (s : HandoffStep)
    (h : conn.isStreaming = true) : (handoffStep conn s).conn.isStreaming = true := by
  cases s with
  | acceptConnection incConn =>
    simp only [handoffStep, connImpl.acceptConnection]
    split <;> exact h
  | signal sig =>
    cases sig with
    | acceptReply err =>
      simp only [handoffStep, handleSignal]
      split
      · cases err with
        | none =>
          simp only [connImpl.acceptReply, connImpl.acceptReturn]
          split <;> simp_all
        | some e =>
          simp only [connImpl.acceptReply]
          split
          · exact h
          · simp only [connImpl.acceptReturn]
            split <;> simp_all
      · exact h
    | initializeConnection connID =>
      simp only [handoffStep, handleSignal, InitializeConnection]
      split
      · exact h
      · split
        · split <;> simp_all
        · exact h
    | errorConnection connID err =>
      simp only [handoffStep, handleSignal, ErrorConnection]
      split
      · exact h
      · split
        · split <;> exact h
        · exact h

theorem runHandoffSteps_invariant (conn : connImpl) (steps : List HandoffStep)
    (h : conn.isStreaming = true → conn.acceptReturned = true ∧ conn.startStreaming ≠ none) :
    (runHandoffSteps conn steps).isStreaming = true →
      (runHandoffSteps conn steps).acceptReturned = true ∧
      (runHandoffSteps conn steps).startStreaming ≠ none := by
  induction steps generalizing conn with
  | nil => exact h
  | cons s ss ih => exact ih _ (handoffStep_invariant conn s h)

theorem runHandoffSteps_streaming (conn : connImpl) (steps : List HandoffStep)
    (h : conn.isStreaming = true) : (runHandoffSteps conn steps).isStreaming = true := by
  induction steps generalizing conn with
  | nil => exact h
  | cons s ss ih => exact ih _ (handoffStep_streaming conn s h)

/-! ## The claims -/

/-- C1 (the code departs from the claim): on a fresh incoming connection a second `Reject` is
as effective as the first. `Reject` never sets `isHandled`, so the second call returns nil and
sends a second `rejectConnection` request, and an `Accept` after a `Reject` returns nil, stores
its callback and opens a session. -/
theorem C1_call_after_reject_is_effective (connID remoteID : Bytes) (fn : CbId) :
    (runCalls (freshIncoming connID remoteID) none [Call.reject, Call.reject]).1.map
        (fun r => (r.err, r.events)) =
      [(none, [Event.rejectConnection connID]), (none, [Event.rejectConnection connID])] ∧
    (runCalls (freshIncoming connID remoteID) none [Call.reject, Call.reject]).2.isHandled
      = false ∧
    (runCalls (freshIncoming connID remoteID) none [Call.reject, Call.accept fn]).1.map
        (fun r => (r.err, r.events)) =
      [(none, [Event.rejectConnection connID]), (none, [Event.newConnection none])] := by
  refine ⟨rfl, rfl, rfl⟩

/-- C2, as stated, fails: with two registered handlers of which the first claims the connection
by calling `Accept` (the connection is handled when it returns), the second handler is called
all the same. -/
theorem C2_counterexample :
    ((HandlerProg.accept 7 (fun _ => HandlerProg.ret)).run (freshIncoming c1 bob)
        none).incConn.isHandled = true ∧
    handlerCalls (IncomingConnection c1 0 bob
        { connImpl.fresh with
          publicID := alice
          incConnFns := [⟨1, HandlerProg.accept 7 (fun _ => HandlerProg.ret)⟩,
            ⟨2, HandlerProg.ret⟩] } none).events = [1, 2] := by
  refine ⟨rfl, rfl⟩

/-- C2 (amended): for every session, every list of registered handlers and every third-party
notification, every registered handler is called exactly once, in registration order, whether
or not an earlier handler has claimed the connection. -/
theorem C2_handlers_all_called_in_order (conn : connImpl) (connID : Bytes) (pendingID : Int)
    (remoteID : Bytes) (dial : Option GoError) (hthird : remoteID ≠ conn.publicID) :
    handlerCalls (IncomingConnection connID pendingID remoteID conn dial).events =
      conn.incConnFns.map Handler.name := by
  unfold IncomingConnection
  simp only [if_neg hthird]
  split
  · simp [handlerCalls_append, handlerCalls_runHandlers, handlerCalls_Reject]
  · exact handlerCalls_runHandlers _ _ _

theorem C2_handlers_all_called_in_order_witness :
    bob ≠ ({ connImpl.fresh with
          publicID := alice
          incConnFns := [⟨1, HandlerProg.reject (fun _ => HandlerProg.ret)⟩,
            ⟨2, HandlerProg.accept 7 (fun _ => HandlerProg.ret)⟩] } : connImpl).publicID ∧
    handlerCalls (IncomingConnection c1 0 bob
        { connImpl.fresh with
          publicID := alice
          incConnFns := [⟨1, HandlerProg.reject (fun _ => HandlerProg.ret)⟩,
            ⟨2, HandlerProg.accept 7 (fun _ => HandlerProg.ret)⟩] } none).events =
      ([⟨1, HandlerProg.reject (fun _ => HandlerProg.ret)⟩,
            ⟨2, HandlerProg.accept 7 (fun _ => HandlerProg.ret)⟩] : List Handler).map
        Handler.name :=
  ⟨by decide, C2_handlers_all_called_in_order _ c1 0 bob none (by decide)⟩

/-- C3 (the code departs from the claim): a self-match notification whose correlation id has no
entry in the pending table (here the table is empty) sends the `rejectConnection` request and
leaves the table as it was, but then panics: the branch reads `pendingConn.fn` through the nil
pointer that `getPendingConnection` returned. -/
theorem C3_unmatched_self_match_panics (conn : connImpl) (connID : Bytes) (pendingID : Int)
    (dial : Option GoError) :
    (IncomingConnection connID pendingID conn.publicID { conn with pendingConn := [] }
        dial).events = [Event.rejectConnection connID] ∧
    (IncomingConnection connID pendingID conn.publicID { conn with pendingConn := [] }
        dial).conn.pendingConn = [] ∧
    (IncomingConnection connID pendingID conn.publicID { conn with pendingConn := [] }
        dial).panic = some "nil pointer dereference" := by
  simp [IncomingConnection, connImpl.getPendingConnection, Load, incomingConnection.Reject]

/-- C4: a self-match notification whose correlation id has the entry `(cb, target)` in the
pending table removes that entry and leaves every other entry as it was; the incoming
connection gets remote id `target`, and is the one `Accept(cb)` leaves (handled, accept callback
`cb`); no handler is called, no `rejectConnection` request is sent, and nothing panics. -/
theorem C4_self_match_found (conn : connImpl) (connID : Bytes) (pendingID : Int)
    (remoteID : Bytes) (cb : CbId) (target : Bytes) (dial : Option GoError)
    (hself : remoteID = conn.publicID)
    (hfound : Load conn.pendingConn pendingID = some ⟨cb, target⟩) :
    Load (IncomingConnection connID pendingID remoteID conn dial).conn.pendingConn pendingID
      = none ∧
    (∀ j, j ≠ pendingID →
      Load (IncomingConnection connID pendingID remoteID conn dial).conn.pendingConn j
        = Load conn.pendingConn j) ∧
    (IncomingConnection connID pendingID remoteID conn dial).incConn =
      { isHandled := true, connID := connID, remoteID := target, acceptCallback := some cb } ∧
    (IncomingConnection connID pendingID remoteID conn dial).incConn =
      (incomingConnection.Accept (freshIncoming connID target) cb dial).incConn ∧
    (IncomingConnection connID pendingID remoteID conn dial).events =
      (incomingConnection.Accept (freshIncoming connID target) cb dial).events ∧
    handlerCalls (IncomingConnection connID pendingID remoteID conn dial).events = [] ∧
    (∀ c, Event.rejectConnection c ∉
      (IncomingConnection connID pendingID remoteID conn dial).events) ∧
    (IncomingConnection connID pendingID remoteID conn dial).panic = none := by
  have hrun : IncomingConnection connID pendingID remoteID conn dial =
      ⟨{ conn with pendingConn := Delete conn.pendingConn pendingID },
        (incomingConnection.Accept (freshIncoming connID target) cb dial).incConn,
        (incomingConnection.Accept (freshIncoming connID target) cb dial).events,
        (incomingConnection.Accept (freshIncoming connID target) cb dial).newConn.toList,
        none⟩ := by
    simp [IncomingConnection, hself, connImpl.getPendingConnection, hfound, freshIncoming]
  rw [hrun]
  refine ⟨Load_Delete_self _ _, fun j hj => Load_Delete_ne _ _ _ hj, ?_, rfl, rfl,
    handlerCalls_Accept _ _ _, ?_, rfl⟩
  · cases dial <;> rfl
  · intro c
    cases dial <;>
      simp [incomingConnection.Accept, freshIncoming, NewConnection, connImpl.OnReady,
        connImpl.fresh]

theorem C4_self_match_found_witness :
    alice = ({ connImpl.fresh with
        publicID := alice, pendingConn := [(5, ⟨7, bob⟩), (6, ⟨8, bob⟩)] } : connImpl).publicID ∧
    Load ({ connImpl.fresh with
        publicID := alice, pendingConn := [(5, ⟨7, bob⟩), (6, ⟨8, bob⟩)] } :
        connImpl).pendingConn 5 = some ⟨7, bob⟩ ∧
    Load (IncomingConnection c1 5 alice
        { connImpl.fresh with publicID := alice, pendingConn := [(5, ⟨7, bob⟩), (6, ⟨8, bob⟩)] }
        none).conn.pendingConn 5 = none ∧
    (IncomingConnection c1 5 alice
        { connImpl.fresh with publicID := alice, pendingConn := [(5, ⟨7, bob⟩), (6, ⟨8, bob⟩)] }
        none).incConn =
      { isHandled := true, connID := c1, remoteID := bob, acceptCallback := some 7 } :=
  have h := C4_self_match_found
    { connImpl.fresh with publicID := alice, pendingConn := [(5, ⟨7, bob⟩), (6, ⟨8, bob⟩)] }
    c1 5 alice 7 bob none rfl rfl
  ⟨rfl, rfl, h.1, h.2.2.1⟩

/-- C5: on a session that is accepting `c` and has received neither signal, the error-free accept
reply followed by `InitializeConnection(c.connID)` and the two in the other order end in the
same session state (`acceptReturned`, `isStreaming` true, `startStreaming` assigned) with the
same trace: `StopHandling` called once, then the accept callback of `c` called once with a
remote connection whose remote id is that of `c` and a nil error. -/
theorem C5_handoff_order_independent (conn : connImpl) (c : incomingConnection) (fn : CbId)
    (hacc : conn.acceptingConn = some c) (hcb : c.acceptCallback = some fn)
    (hret : conn.acceptReturned = false) (hstart : conn.startStreaming = none)
    (_hstr : conn.isStreaming = false) :
    HandleConnection conn [Signal.acceptReply none, Signal.initializeConnection c.connID] =
      HandleConnection conn [Signal.initializeConnection c.connID, Signal.acceptReply none] ∧
    HandleConnection conn [Signal.initializeConnection c.connID, Signal.acceptReply none] =
      ⟨{ conn with acceptReturned := true, isStreaming := true, startStreaming := some c },
        [Event.stopHandling, Event.callback fn (some ⟨c.remoteID⟩) none], none⟩ ∧
    (HandleConnection conn [Signal.acceptReply none,
      Signal.initializeConnection c.connID]).events.count Event.stopHandling = 1 ∧
    (HandleConnection conn [Signal.initializeConnection c.connID,
      Signal.acceptReply none]).events.count Event.stopHandling = 1 := by
  rw [handoff_accept_first conn c fn hacc hcb hstart, handoff_init_first conn c fn hacc hcb hret]
  simp

theorem C5_handoff_order_independent_witness :
    HandleConnection
        { connImpl.fresh with ready := true, acceptingConn := some ⟨true, c1, bob, some 7⟩ }
        [Signal.acceptReply none, Signal.initializeConnection c1] =
      HandleConnection
        { connImpl.fresh with ready := true, acceptingConn := some ⟨true, c1, bob, some 7⟩ }
        [Signal.initializeConnection c1, Signal.acceptReply none] ∧
    (HandleConnection
        { connImpl.fresh with ready := true, acceptingConn := some ⟨true, c1, bob, some 7⟩ }
        [Signal.initializeConnection c1, Signal.acceptReply none]).events =
      [Event.stopHandling, Event.callback 7 (some ⟨bob⟩) none] :=
  have h := C5_handoff_order_independent
    { connImpl.fresh with ready := true, acceptingConn := some ⟨true, c1, bob, some 7⟩ }
    ⟨true, c1, bob, some 7⟩ 7 rfl rfl rfl rfl rfl
  ⟨h.1, by rw [h.2.1]⟩

/-- C6: requester path, end to end. A session whose public id is `p` calls `ConnectTo(t, cb)`
and gets correlation id `k`; the gateway replies without error and then notifies the self-match
`(connID, k, p)`; `Accept` opens one new session (`net.Dial` succeeding) with its ready callback
registered. When that session gets the error-free `Version` reply it sends the
`acceptConnection(connID)` request, and after the error-free accept reply and
`InitializeConnection(connID)`, in either order, `cb` is called with a nil error and a remote
connection whose `GetRemoteID` is `t`; nothing panics on the way. -/
theorem C6_requester_path (A : connImpl) (p t : Bytes) (cb : CbId) (connID : Bytes)
    (draws : List Int) (r : ConnectRes)
    (hp : A.publicID = p) (hconn : A.ConnectTo t cb draws = some r) :
    ∃ S : connImpl,
      (IncomingConnection connID r.pendingID p
        (r.conn.connectReply r.pendingID cb none).conn none).newConns = [S] ∧
      (IncomingConnection connID r.pendingID p
        (r.conn.connectReply r.pendingID cb none).conn none).panic = none ∧
      (versionReply S none).events = [Event.acceptConnection connID] ∧
      (versionReply S none).panic = none ∧
      ∀ sigs ∈ [[Signal.acceptReply none, Signal.initializeConnection connID],
          [Signal.initializeConnection connID, Signal.acceptReply none]],
        (HandleConnection (versionReply S none).conn sigs).panic = none ∧
        ∃ rc : remoteConnection,
          (HandleConnection (versionReply S none).conn sigs).events =
            [Event.stopHandling, Event.callback cb (some rc) none] ∧
          rc.GetRemoteID = t := by
  obtain ⟨h1, h2, h3, _⟩ := ConnectTo_some A t cb draws r hconn
  have hload : Load r.conn.pendingConn r.pendingID = some ⟨cb, t⟩ := by
    rw [h2]
    simp [Load_cons]
  have hpub : r.conn.publicID = p := by
    rw [h2]
    exact hp
  have hinc : IncomingConnection connID r.pendingID p
      (r.conn.connectReply r.pendingID cb none).conn none =
      ⟨{ r.conn with pendingConn := Delete r.conn.pendingConn r.pendingID },
        ⟨true, connID, t, some cb⟩, [Event.newConnection none],
        [{ connImpl.fresh with readyFns := [ReadyFn.acceptHook ⟨true, connID, t, some cb⟩] }],
        none⟩ := by
    simp [IncomingConnection, connImpl.connectReply, hpub, connImpl.getPendingConnection,
      hload, incomingConnection.Accept, NewConnection, connImpl.OnReady, connImpl.fresh]
  have hver : versionReply
      { connImpl.fresh with readyFns := [ReadyFn.acceptHook ⟨true, connID, t, some cb⟩] } none =
      ⟨{ connImpl.fresh with
          readyFns := [ReadyFn.acceptHook ⟨true, connID, t, some cb⟩]
          ready := true
          acceptingConn := some ⟨true, connID, t, some cb⟩ },
        [Event.acceptConnection connID], none⟩ := by
    simp [versionReply, runReadyFns, runReadyFn, connImpl.acceptConnection, connImpl.fresh]
  refine ⟨_, by rw [hinc], by rw [hinc], by rw [hver], by rw [hver], ?_⟩
  intro sigs hs
  rw [hver]
  simp only [List.mem_cons, List.mem_singleton, List.not_mem_nil, or_false] at hs
  rcases hs with hs | hs
  · subst hs
    have e := handoff_accept_first
      { connImpl.fresh with
          readyFns := [ReadyFn.acceptHook ⟨true, connID, t, some cb⟩]
          ready := true
          acceptingConn := some ⟨true, connID, t, some cb⟩ }
      ⟨true, connID, t, some cb⟩ cb rfl rfl rfl
    exact ⟨by rw [e], ⟨t⟩, by rw [e], rfl⟩
  · subst hs
    have e := handoff_init_first
      { connImpl.fresh with
          readyFns := [ReadyFn.acceptHook ⟨true, connID, t, some cb⟩]
          ready := true
          acceptingConn := some ⟨true, connID, t, some cb⟩ }
      ⟨true, connID, t, some cb⟩ cb rfl rfl rfl
    exact ⟨by rw [e], ⟨t⟩, by rw [e], rfl⟩

theorem C6_requester_path_witness :
    (connImpl.Authenticate { connImpl.fresh with ready := true } [1] alice [2] 0).conn.publicID
      = alice ∧
    connImpl.ConnectTo
      (connImpl.Authenticate { connImpl.fresh with ready := true } [1] alice [2] 0).conn
      bob 7 [42] =
      some ⟨{ connImpl.fresh with
          ready := true, appID := alice, publicID := alice, pendingConn := [(42, ⟨7, bob⟩)] },
        42, [Event.connectTo bob 42]⟩ ∧
    ∃ S : connImpl,
      (IncomingConnection c1 42 alice
        (connImpl.connectReply { connImpl.fresh with
          ready := true, appID := alice, publicID := alice, pendingConn := [(42, ⟨7, bob⟩)] }
          42 7 none).conn none).newConns = [S] ∧
      ∀ sigs ∈ [[Signal.acceptReply none, Signal.initializeConnection c1],
          [Signal.initializeConnection c1, Signal.acceptReply none]],
        ∃ rc : remoteConnection,
          (HandleConnection (versionReply S none).conn sigs).events =
            [Event.stopHandling, Event.callback 7 (some rc) none] ∧
          rc.GetRemoteID = bob :=
  have h := C6_requester_path
    (connImpl.Authenticate { connImpl.fresh with ready := true } [1] alice [2] 0).conn
    alice bob 7 c1 [42]
    ⟨{ connImpl.fresh with
        ready := true, appID := alice, publicID := alice, pendingConn := [(42, ⟨7, bob⟩)] },
      42, [Event.connectTo bob 42]⟩ rfl rfl
  ⟨rfl, rfl, h.elim fun S hS => ⟨S, hS.1, fun sigs hs => (hS.2.2.2.2 sigs hs).2⟩⟩

/-- C7: when the draws contain an id absent from the pending table, `ConnectTo(t, cb)` returns;
it uses the first drawn id `k` that is absent, the table afterwards is the old one with
`k -> (cb, t)` added (no entry overwritten or removed), no other field changes, and exactly one
`connect` request, carrying `(t, k)`, is sent. A second `ConnectTo` on the resulting session
gets an id different from `k`, and both entries are then in the table. -/
theorem C7_ConnectTo_inserts_first_absent (conn : connImpl) (t : Bytes) (cb : CbId)
    (draws : List Int) (h : ∃ d ∈ draws, Load conn.pendingConn d = none) :
    ∃ r, conn.ConnectTo t cb draws = some r ∧
      (∃ pre post, draws = pre ++ r.pendingID :: post ∧
        (∀ d ∈ pre, Load conn.pendingConn d ≠ none) ∧
        Load conn.pendingConn r.pendingID = none) ∧
      r.conn = { conn with pendingConn := (r.pendingID, ⟨cb, t⟩) :: conn.pendingConn } ∧
      (∀ j, Load r.conn.pendingConn j =
        if j = r.pendingID then some ⟨cb, t⟩ else Load conn.pendingConn j) ∧
      r.events = [Event.connectTo t r.pendingID] ∧
      ∀ (t2 : Bytes) (cb2 : CbId) (draws2 : List Int),
        (∃ d ∈ draws2, Load r.conn.pendingConn d = none) →
        ∃ r2, r.conn.ConnectTo t2 cb2 draws2 = some r2 ∧
          r2.pendingID ≠ r.pendingID ∧
          Load r2.conn.pendingConn r.pendingID = some ⟨cb, t⟩ ∧
          Load r2.conn.pendingConn r2.pendingID = some ⟨cb2, t2⟩ ∧
          r2.events = [Event.connectTo t2 r2.pendingID] := by
  obtain ⟨r, hr⟩ := ConnectTo_isSome conn t cb draws h
  obtain ⟨h1, h2, h3, pre, post, h4, h5⟩ := ConnectTo_some conn t cb draws r hr
  have hload : ∀ j, Load r.conn.pendingConn j =
      if j = r.pendingID then some ⟨cb, t⟩ else Load conn.pendingConn j := by
    intro j
    rw [h2]
    exact Load_cons _ _ _ _
  refine ⟨r, hr, ⟨pre, post, h4, h5, h1⟩, h2, hload, h3, ?_⟩
  intro t2 cb2 draws2 hd2
  obtain ⟨r2, hr2⟩ := ConnectTo_isSome r.conn t2 cb2 draws2 hd2
  obtain ⟨g1, g2, g3, _⟩ := ConnectTo_some r.conn t2 cb2 draws2 r2 hr2
  have hne : r2.pendingID ≠ r.pendingID := by
    intro e
    rw [e, hload] at g1
    simp at g1
  refine ⟨r2, hr2, hne, ?_, ?_, g3⟩
  · rw [g2]
    simp only [Load_cons, if_neg (Ne.symm hne)]
    rw [hload]
    simp
  · rw [g2]
    simp [Load_cons]

theorem C7_ConnectTo_inserts_first_absent_witness :
    (∃ d ∈ ([5, 6, 9] : List Int),
      Load ({ connImpl.fresh with pendingConn := [(5, ⟨1, alice⟩), (6, ⟨2, bob⟩)] } :
        connImpl).pendingConn d = none) ∧
    ∃ r, connImpl.ConnectTo
        { connImpl.fresh with pendingConn := [(5, ⟨1, alice⟩), (6, ⟨2, bob⟩)] }
        bob 3 [5, 6, 9] = some r ∧ r.events = [Event.connectTo bob r.pendingID] :=
  have hd : ∃ d ∈ ([5, 6, 9] : List Int),
      Load ({ connImpl.fresh with pendingConn := [(5, ⟨1, alice⟩), (6, ⟨2, bob⟩)] } :
        connImpl).pendingConn d = none := ⟨9, by decide, by decide⟩
  have h := C7_ConnectTo_inserts_first_absent
    { connImpl.fresh with pendingConn := [(5, ⟨1, alice⟩), (6, ⟨2, bob⟩)] } bob 3 [5, 6, 9] hd
  ⟨hd, h.elim fun r hr => ⟨r, hr.1, hr.2.2.2.2.1⟩⟩

/-- C8: after a `ConnectTo(t, cb)` that inserted the entry under id `k`: a gateway reply with
error `e` removes the entry `k`, leaves every other entry as it was and calls `cb` once, with
`(nil, e)`; a reply without error changes nothing (the entry `k` is still there) and calls no
callback. -/
theorem C8_connect_reply (conn : connImpl) (t : Bytes) (cb : CbId) (draws : List Int)
    (r : ConnectRes) (h : conn.ConnectTo t cb draws = some r) :
    (∀ e : GoError,
      (r.conn.connectReply r.pendingID cb (some e)).events = [Event.callback cb none (some e)] ∧
      Load (r.conn.connectReply r.pendingID cb (some e)).conn.pendingConn r.pendingID = none ∧
      (∀ j, j ≠ r.pendingID →
        Load (r.conn.connectReply r.pendingID cb (some e)).conn.pendingConn j =
          Load r.conn.pendingConn j) ∧
      (r.conn.connectReply r.pendingID cb (some e)).conn =
        { r.conn with pendingConn := Delete r.conn.pendingConn r.pendingID } ∧
      (r.conn.connectReply r.pendingID cb (some e)).panic = none) ∧
    (r.conn.connectReply r.pendingID cb none).conn = r.conn ∧
    (r.conn.connectReply r.pendingID cb none).events = [] ∧
    (r.conn.connectReply r.pendingID cb none).panic = none ∧
    Load (r.conn.connectReply r.pendingID cb none).conn.pendingConn r.pendingID
      = some ⟨cb, t⟩ := by
  obtain ⟨_, h2, _, _⟩ := ConnectTo_some conn t cb draws r h
  refine ⟨fun e => ⟨rfl, Load_Delete_self _ _, fun j hj => Load_Delete_ne _ _ _ hj, rfl, rfl⟩,
    rfl, rfl, rfl, ?_⟩
  show Load r.conn.pendingConn r.pendingID = some ⟨cb, t⟩
  rw [h2]
  simp [Load_cons]

theorem C8_connect_reply_witness :
    connImpl.ConnectTo connImpl.fresh bob 3 [9] =
      some ⟨{ connImpl.fresh with pendingConn := [(9, ⟨3, bob⟩)] }, 9,
        [Event.connectTo bob 9]⟩ ∧
    (connImpl.connectReply { connImpl.fresh with pendingConn := [(9, ⟨3, bob⟩)] } 9 3
      (some ⟨"no such peer"⟩)).events = [Event.callback 3 none (some ⟨"no such peer"⟩)] ∧
    Load (connImpl.connectReply { connImpl.fresh with pendingConn := [(9, ⟨3, bob⟩)] } 9 3
      (some ⟨"no such peer"⟩)).conn.pendingConn 9 = none :=
  have h := C8_connect_reply connImpl.fresh bob 3 [9]
    ⟨{ connImpl.fresh with pendingConn := [(9, ⟨3, bob⟩)] }, 9, [Event.connectTo bob 9]⟩ rfl
  ⟨rfl, (h.1 ⟨"no such peer"⟩).1, (h.1 ⟨"no such peer"⟩).2.1⟩

/-- C9: on a session that is not ready and has no ready callback yet, let the application
callbacks `pre` be registered, then the `Version` reply arrive without error, then the callbacks
`post` be registered. No callback is called before the reply; the reply calls the callbacks of
`pre` in registration order; every later `OnReady` calls its callback within the call; over the
whole run the calls are those of `pre ++ post`, in order, each registration called once, and
nothing panics. -/
theorem C9_ready_callbacks_once_in_order (conn : connImpl) (pre post : List Nat)
    (hready : conn.ready = false) (hfns : conn.readyFns = []) :
    (runReadySteps conn (pre.map registration)).events = [] ∧
    (runReadySteps conn (pre.map registration ++ [ReadyStep.versionReply none])).events =
      pre.map Event.readyFn ∧
    (runReadySteps conn (pre.map registration ++ [ReadyStep.versionReply none])).conn.ready
      = true ∧
    (∀ (c : connImpl) (n : Nat), c.ready = true →
      (c.OnReady (ReadyFn.app n)).events = [Event.readyFn n] ∧
      (c.OnReady (ReadyFn.app n)).conn.ready = true) ∧
    (runReadySteps (runReadySteps conn
        (pre.map registration ++ [ReadyStep.versionReply none])).conn
      (post.map registration)).events = post.map Event.readyFn ∧
    (runReadySteps conn (pre.map registration ++ [ReadyStep.versionReply none] ++
      post.map registration)).events = (pre ++ post).map Event.readyFn ∧
    (∀ n, (runReadySteps conn (pre.map registration ++ [ReadyStep.versionReply none] ++
      post.map registration)).events.count (Event.readyFn n) = (pre ++ post).count n) ∧
    (runReadySteps conn (pre.map registration ++ [ReadyStep.versionReply none] ++
      post.map registration)).panic = none := by
  have h1 := runReadySteps_notReady conn pre hready
  have h2 : runReadySteps conn (pre.map registration ++ [ReadyStep.versionReply none]) =
      ⟨{ conn with ready := true, readyFns := pre.map ReadyFn.app },
        pre.map Event.readyFn, none⟩ := by
    rw [runReadySteps_append _ _ _ (by rw [h1]), h1]
    simp [runReadySteps, readyStep, versionReply, hfns, runReadyFns_app]
  have h3 : runReadySteps conn (pre.map registration ++ [ReadyStep.versionReply none] ++
      post.map registration) =
      ⟨{ conn with ready := true, readyFns := pre.map ReadyFn.app ++ post.map ReadyFn.app },
        (pre ++ post).map Event.readyFn, none⟩ := by
    rw [runReadySteps_append _ _ _ (by rw [h2]), h2, runReadySteps_ready _ _ rfl]
    simp
  have hinj : Function.Injective Event.readyFn := fun a b hab => by
    cases hab
    rfl
  refine ⟨by rw [h1], by rw [h2], by rw [h2], ?_, ?_, by rw [h3], ?_, by rw [h3]⟩
  · intro c n hc
    simp [connImpl.OnReady, hc, runReadyFn]
  · rw [h2, runReadySteps_ready _ _ rfl]
  · intro n
    rw [h3]
    exact List.count_map_of_injective _ _ hinj n

theorem C9_ready_callbacks_once_in_order_witness :
    connImpl.fresh.ready = false ∧ connImpl.fresh.readyFns = [] ∧
    (runReadySteps connImpl.fresh ([1, 2].map registration ++ [ReadyStep.versionReply none] ++
      [3, 4].map registration)).events =
        [Event.readyFn 1, Event.readyFn 2, Event.readyFn 3, Event.readyFn 4] :=
  ⟨rfl, rfl, (C9_ready_callbacks_once_in_order connImpl.fresh [1, 2] [3, 4] rfl rfl).2.2.2.2.2.1⟩

/-- C10, as stated, fails: on a session accepting `c`, after `ErrorConnection(c.connID, m)` has
called the accept callback with the error, the accept reply and `InitializeConnection(c.connID)`
still put the session into streaming mode and deliver a remote connection to the same
callback. -/
theorem C10_counterexample :
    (ErrorConnection c1 "peer gone"
      { connImpl.fresh with ready := true, acceptingConn := some ⟨true, c1, bob, some 7⟩ }).events
      = [Event.callback 7 none (some (errors_New "peer gone"))] ∧
    (HandleConnection (ErrorConnection c1 "peer gone"
      { connImpl.fresh with ready := true, acceptingConn := some ⟨true, c1, bob, some 7⟩ }).conn
      [Signal.acceptReply none, Signal.initializeConnection c1]).conn.isStreaming = true ∧
    (HandleConnection (ErrorConnection c1 "peer gone"
      { connImpl.fresh with ready := true, acceptingConn := some ⟨true, c1, bob, some 7⟩ }).conn
      [Signal.acceptReply none, Signal.initializeConnection c1]).events =
      [Event.stopHandling, Event.callback 7 (some ⟨bob⟩) none] := by
  refine ⟨rfl, rfl, rfl⟩

/-- C10 (amended): on a session accepting `c`, `ErrorConnection(c.connID, m)` calls the accept
callback of `c` with `(nil, error with message m)` and changes no session state, so the signals
that follow are handled as they would have been without it; an `ErrorConnection` with another
connection id calls no callback and changes no state. -/
theorem C10_error_connection_only_reports (conn : connImpl) (c : incomingConnection)
    (fn : CbId) (m : String)
    (hacc : conn.acceptingConn = some c) (hcb : c.acceptCallback = some fn) :
    ErrorConnection c.connID m conn =
      ⟨conn, [Event.callback fn none (some (errors_New m))], none⟩ ∧
    (errors_New m).msg = m ∧
    (∀ sigs, HandleConnection (ErrorConnection c.connID m conn).conn sigs =
      HandleConnection conn sigs) ∧
    ∀ connID, connID ≠ c.connID → ErrorConnection connID m conn = ⟨conn, [], none⟩ := by
  have h : ErrorConnection c.connID m conn =
      ⟨conn, [Event.callback fn none (some (errors_New m))], none⟩ := by
    simp [ErrorConnection, hacc, hcb]
  refine ⟨h, rfl, fun sigs => by rw [h], ?_⟩
  intro connID hne
  simp [ErrorConnection, hacc, Ne.symm hne]

theorem C10_error_connection_only_reports_witness :
    ({ connImpl.fresh with ready := true, acceptingConn := some ⟨true, c1, bob, some 7⟩ } :
      connImpl).acceptingConn = some ⟨true, c1, bob, some 7⟩ ∧
    (ErrorConnection c1 "peer gone"
      { connImpl.fresh with ready := true, acceptingConn := some ⟨true, c1, bob, some 7⟩ }).events
      = [Event.callback 7 none (some (errors_New "peer gone"))] :=
  ⟨rfl, by
    rw [(C10_error_connection_only_reports
      { connImpl.fresh with ready := true, acceptingConn := some ⟨true, c1, bob, some 7⟩ }
      ⟨true, c1, bob, some 7⟩ 7 "peer gone" rfl rfl).1]⟩

/-- C11: a third-party notification on a session none of whose handlers calls `Accept` or
`Reject` on the connection (the session may have no handler at all): the handlers are called,
then exactly one `rejectConnection` request is sent, carrying the connection id of the
notification; no session is opened, no callback `func(RemoteConnection, error)` is called, the
session is unchanged and nothing panics. -/
theorem C11_unclaimed_is_rejected_once (conn : connImpl) (connID : Bytes) (pendingID : Int)
    (remoteID : Bytes) (dial : Option GoError) (hthird : remoteID ≠ conn.publicID)
    (hquiet : ∀ fn ∈ conn.incConnFns, fn.prog.quiet (freshIncoming connID remoteID) = true) :
    (IncomingConnection connID pendingID remoteID conn dial).events =
      conn.incConnFns.map (fun fn => Event.handler fn.name) ++
        [Event.rejectConnection connID] ∧
    (∀ c, (IncomingConnection connID pendingID remoteID conn dial).events.count
      (Event.rejectConnection c) = if c = connID then 1 else 0) ∧
    (IncomingConnection connID pendingID remoteID conn dial).newConns = [] ∧
    (∀ e, Event.newConnection e ∉
      (IncomingConnection connID pendingID remoteID conn dial).events) ∧
    (∀ fn rc err, Event.callback fn rc err ∉
      (IncomingConnection connID pendingID remoteID conn dial).events) ∧
    (IncomingConnection connID pendingID remoteID conn dial).incConn.acceptCallback = none ∧
    (IncomingConnection connID pendingID remoteID conn dial).panic = none := by
  have hrun := runHandlers_of_quiet conn.incConnFns (freshIncoming connID remoteID) dial hquiet
  have h : IncomingConnection connID pendingID remoteID conn dial =
      ⟨conn, freshIncoming connID remoteID,
        conn.incConnFns.map (fun fn => Event.handler fn.name) ++
          [Event.rejectConnection connID], [], none⟩ := by
    unfold IncomingConnection
    simp only [if_neg hthird]
    unfold freshIncoming at hrun
    simp [hrun, incomingConnection.IsHandled, incomingConnection.Reject, freshIncoming]
  rw [h]
  refine ⟨rfl, ?_, rfl, ?_, ?_, rfl, rfl⟩
  · intro c
    by_cases hc : c = connID
    · subst hc
      simp [List.count_eq_zero_of_not_mem]
    · have hc2 : ¬ connID = c := fun e => hc e.symm
      simp [hc, hc2, List.count_eq_zero_of_not_mem]
  · intro e
    simp
  · intro fn rc err
    simp

theorem C11_unclaimed_is_rejected_once_witness :
    bob ≠ ({ connImpl.fresh with
        publicID := alice
        incConnFns := [⟨1, HandlerProg.isHandled (fun _ => HandlerProg.ret)⟩,
          ⟨2, HandlerProg.ret⟩] } : connImpl).publicID ∧
    (IncomingConnection c1 0 bob
      { connImpl.fresh with
        publicID := alice
        incConnFns := [⟨1, HandlerProg.isHandled (fun _ => HandlerProg.ret)⟩,
          ⟨2, HandlerProg.ret⟩] } none).events =
      [Event.handler 1, Event.handler 2, Event.rejectConnection c1] :=
  ⟨by decide,
    (C11_unclaimed_is_rejected_once
      { connImpl.fresh with
        publicID := alice
        incConnFns := [⟨1, HandlerProg.isHandled (fun _ => HandlerProg.ret)⟩,
          ⟨2, HandlerProg.ret⟩] } c1 0 bob none (by decide)
      (by
        intro fn hfn
        simp only [List.mem_cons, List.mem_singleton, List.not_mem_nil, or_false] at hfn
        rcases hfn with hfn | hfn <;> subst hfn <;> rfl)).1⟩

/-- C12, as stated, fails: on a ready session whose public id is "alice",
`Authenticate(appID, "bob", secretKey, fn)` has made "bob" the public id when it returns, before
any reply, and a reply that carries an error leaves it "bob". -/
theorem C12_counterexample :
    ({ connImpl.fresh with ready := true, publicID := alice } : connImpl).publicID = alice ∧
    (connImpl.Authenticate { connImpl.fresh with ready := true, publicID := alice }
      [1] bob [2] 0).conn.publicID = bob ∧
    (connImpl.authenticateReply
      (connImpl.Authenticate { connImpl.fresh with ready := true, publicID := alice }
        [1] bob [2] 0).conn 0 (some ⟨"wrong secret"⟩)).conn.publicID = bob ∧
    bob ≠ alice := by
  refine ⟨rfl, rfl, rfl, by decide⟩

/-- C12 (amended): on a ready session `Authenticate(appID, publicID, secretKey, fn)` sends one
`authenticate` request with these arguments and `fn`, and stores `publicID` as the public id of
the session at once; the reply, with an error or without, is passed to `fn` and leaves the
public id as stored. -/
theorem C12_authenticate_stores_at_once (conn : connImpl) (appID publicID secretKey : Bytes)
    (fn : Nat) (hready : conn.ready = true) :
    (conn.Authenticate appID publicID secretKey fn).events =
      [Event.authenticate appID publicID secretKey fn] ∧
    (conn.Authenticate appID publicID secretKey fn).conn.publicID = publicID ∧
    (conn.Authenticate appID publicID secretKey fn).panic = none ∧
    ∀ err : Option GoError,
      ((conn.Authenticate appID publicID secretKey fn).conn.authenticateReply fn
        err).conn.publicID = publicID ∧
      ((conn.Authenticate appID publicID secretKey fn).conn.authenticateReply fn err).events =
        [Event.errorFn fn err] := by
  simp [connImpl.Authenticate, hready, connImpl.authenticateReply]

theorem C12_authenticate_stores_at_once_witness :
    ({ connImpl.fresh with ready := true, publicID := alice } : connImpl).ready = true ∧
    (connImpl.Authenticate { connImpl.fresh with ready := true, publicID := alice }
      [1] bob [2] 0).conn.publicID = bob :=
  ⟨rfl, (C12_authenticate_stores_at_once
    { connImpl.fresh with ready := true, publicID := alice } [1] bob [2] 0 rfl).2.1⟩

/-- C13, as stated, fails: on a ready session `Register(appID, publicID, registrationKey, fn)`
with `appID = [1]`, `publicID = [2]`, `registrationKey = [3]` sends the request with the
arguments `([1], [3], [2])`, the key before the public id. -/
theorem C13_counterexample :
    (connImpl.Register { connImpl.fresh with ready := true } [1] [2] [3] 0).events =
      [Event.register [1] [3] [2] 0] ∧
    (connImpl.Register { connImpl.fresh with ready := true } [1] [2] [3] 0).events ≠
      [Event.register [1] [2] [3] 0] := by
  refine ⟨rfl, by decide⟩

/-- C13 (amended): on a ready session `Register(appID, publicID, registrationKey, fn)` sends
exactly one `register` request, whose arguments are, in order, `appID`, `registrationKey`,
`publicID`, with `fn` as its callback; on a session that is not ready it sends nothing and calls
nothing; in both cases the session is unchanged and nothing panics. -/
theorem C13_register_forwards_when_ready (conn : connImpl)
    (appID publicID registrationKey : Bytes) (fn : Nat) :
    conn.Register appID publicID registrationKey fn =
      ⟨conn, if conn.ready then [Event.register appID registrationKey publicID fn] else [],
        none⟩ := by
  unfold connImpl.Register
  cases conn.ready <;> rfl

/-- C14: on a session that has an accepting connection `c`, `acceptConnection(d)` changes no
field (the accepting connection is still `c`) and sends no request; on a session that has none
it makes `d` the accepting connection, changes no other field, and sends exactly one
`acceptConnection` request, with the connection id of `d`. The two kinds of session are written
as an arbitrary session with the field `acceptingConn` set to `some c` and to `none`. -/
theorem C14_one_accepting_connection (conn : connImpl) (c d : incomingConnection) :
    connImpl.acceptConnection { conn with acceptingConn := some c } d =
      ⟨{ conn with acceptingConn := some c }, [], none⟩ ∧
    connImpl.acceptConnection { conn with acceptingConn := none } d =
      ⟨{ conn with acceptingConn := some d }, [Event.acceptConnection d.connID], none⟩ := by
  refine ⟨rfl, rfl⟩

/-- C15: streaming mode is entered by the second handoff signal only, and for good. Starting
from a session that has received no signal (`isStreaming`, `acceptReturned` false,
`startStreaming` nil), after any sequence of `acceptConnection`, accept reply,
`InitializeConnection` and `ErrorConnection` steps `isStreaming` implies `acceptReturned` and
`startStreaming` assigned. After one signal alone, the accept reply (with an error or without)
or an `InitializeConnection`, `isStreaming` is false, `StopHandling` was not called and no
remote connection was delivered. No step, and no sequence of steps, takes `isStreaming` from true to
false. -/
theorem C15_streaming_only_after_both_signals (conn : connImpl)
    (hstr : conn.isStreaming = false) (hret : conn.acceptReturned = false)
    (hstart : conn.startStreaming = none) :
    (∀ steps, (runHandoffSteps conn steps).isStreaming = true →
      (runHandoffSteps conn steps).acceptReturned = true ∧
      (runHandoffSteps conn steps).startStreaming ≠ none) ∧
    (∀ (c : incomingConnection) (sig : Signal),
      ((∃ err, sig = Signal.acceptReply err) ∨
        ∃ connID, sig = Signal.initializeConnection connID) →
      (HandleConnection (conn.acceptConnection c).conn [sig]).conn.isStreaming = false ∧
      Event.stopHandling ∉ (HandleConnection (conn.acceptConnection c).conn [sig]).events ∧
      ∀ fn rc err, Event.callback fn (some rc) err ∉
        (HandleConnection (conn.acceptConnection c).conn [sig]).events) ∧
    (∀ (s : connImpl) (step : HandoffStep), s.isStreaming = true →
      (handoffStep s step).conn.isStreaming = true) ∧
    (∀ (s : connImpl) (steps : List HandoffStep), s.isStreaming = true →
      (runHandoffSteps s steps).isStreaming = true) := by
  refine ⟨fun steps => runHandoffSteps_invariant conn steps (by simp [hstr]), ?_,
    handoffStep_streaming, runHandoffSteps_streaming⟩
  intro c sig hsig
  have hacc : ∃ a, (conn.acceptConnection c).conn.acceptingConn = some a ∧
      (conn.acceptConnection c).conn.isStreaming = false ∧
      (conn.acceptConnection c).conn.acceptReturned = false ∧
      (conn.acceptConnection c).conn.startStreaming = none := by
    unfold connImpl.acceptConnection
    cases h : conn.acceptingConn with
    | none => exact ⟨c, rfl, hstr, hret, hstart⟩
    | some a => exact ⟨a, h, hstr, hret, hstart⟩
  obtain ⟨a, h1, h2, h3, h4⟩ := hacc
  rcases hsig with ⟨err, hsig⟩ | ⟨connID, hsig⟩
  · subst hsig
    cases err with
    | none =>
      simp [HandleConnection, handleSignal, h1, connImpl.acceptReply, connImpl.acceptReturn,
        h4, h2]
    | some e =>
      cases hcb : a.acceptCallback with
      | none =>
        simp [HandleConnection, handleSignal, h1, connImpl.acceptReply, hcb, h2]
      | some fn =>
        simp [HandleConnection, handleSignal, h1, connImpl.acceptReply, hcb,
          connImpl.acceptReturn, h4, h2]
  · subst hsig
    by_cases hid : a.connID = connID
    · simp [HandleConnection, handleSignal, InitializeConnection, h1, hid, h3, h2]
    · simp [HandleConnection, handleSignal, InitializeConnection, h1, hid, h2]

theorem C15_streaming_only_after_both_signals_witness :
    connImpl.fresh.isStreaming = false ∧ connImpl.fresh.acceptReturned = false ∧
    connImpl.fresh.startStreaming = none ∧
    (runHandoffSteps connImpl.fresh
        [HandoffStep.acceptConnection ⟨true, c1, bob, some 7⟩,
          HandoffStep.signal (Signal.initializeConnection c1),
          HandoffStep.signal (Signal.acceptReply none)]).isStreaming = true ∧
    (runHandoffSteps connImpl.fresh
        [HandoffStep.acceptConnection ⟨true, c1, bob, some 7⟩,
          HandoffStep.signal (Signal.initializeConnection c1),
          HandoffStep.signal (Signal.acceptReply none)]).acceptReturned = true ∧
    (runHandoffSteps connImpl.fresh
        [HandoffStep.acceptConnection ⟨true, c1, bob, some 7⟩,
          HandoffStep.signal (Signal.initializeConnection c1),
          HandoffStep.signal (Signal.acceptReply none)]).startStreaming ≠ none :=
  ⟨rfl, rfl, rfl, rfl,
    (C15_streaming_only_after_both_signals connImpl.fresh rfl rfl rfl).1
      [HandoffStep.acceptConnection ⟨true, c1, bob, some 7⟩,
        HandoffStep.signal (Signal.initializeConnection c1),
        HandoffStep.signal (Signal.acceptReply none)] rfl⟩

/-- C16: on an incoming connection that is handled, `Accept(fn)` and `Reject()` return the error
"connection already handled", leave every field as it was (the accept callback is not replaced
by `fn`), open no session and send no request. -/
theorem C16_already_handled_is_atomic (conn : incomingConnection) (fn : CbId)
    (dial : Option GoError) (hhandled : conn.isHandled = true) :
    incomingConnection.Accept conn fn dial =
      ⟨conn, some (errors_New "connection already handled"), [], none⟩ ∧
    incomingConnection.Reject conn =
      ⟨conn, some (errors_New "connection already handled"), []⟩ ∧
    (errors_New "connection already handled").msg = "connection already handled" := by
  simp [incomingConnection.Accept, incomingConnection.Reject, hhandled, errors_New]

theorem C16_already_handled_is_atomic_witness :
    (⟨true, c1, bob, some 7⟩ : incomingConnection).isHandled = true ∧
    incomingConnection.Accept ⟨true, c1, bob, some 7⟩ 8 none =
      ⟨⟨true, c1, bob, some 7⟩, some (errors_New "connection already handled"), [], none⟩ :=
  ⟨rfl, (C16_already_handled_is_atomic ⟨true, c1, bob, some 7⟩ 8 none rfl).1⟩

/-- C17 (the code departs from the claim): on a session accepting a connection with accept
callback `fn`, an accept reply that carries the error `e` calls `fn(nil, e)` and then goes on as
a reply without error does: it sets `acceptReturned`, and with `InitializeConnection` for the
connection, before or after the reply, the session enters streaming mode, calls `StopHandling`
and calls `fn` a second time, with a remote connection. -/
theorem C17_accept_error_still_hands_off (conn : connImpl) (connID remoteID : Bytes)
    (fn : CbId) (e : GoError) :
    (handleSignal
      { conn with
        acceptingConn := some ⟨true, connID, remoteID, some fn⟩
        isStreaming := false, acceptReturned := false, startStreaming := none }
      (Signal.acceptReply (some e))).conn.acceptReturned = true ∧
    HandleConnection
      { conn with
        acceptingConn := some ⟨true, connID, remoteID, some fn⟩
        isStreaming := false, acceptReturned := false, startStreaming := none }
      [Signal.initializeConnection connID, Signal.acceptReply (some e)] =
      ⟨{ conn with
          acceptingConn := some ⟨true, connID, remoteID, some fn⟩
          isStreaming := true, acceptReturned := true
          startStreaming := some ⟨true, connID, remoteID, some fn⟩ },
        [Event.callback fn none (some e), Event.stopHandling,
          Event.callback fn (some ⟨remoteID⟩) none], none⟩ ∧
    HandleConnection
      { conn with
        acceptingConn := some ⟨true, connID, remoteID, some fn⟩
        isStreaming := false, acceptReturned := false, startStreaming := none }
      [Signal.acceptReply (some e), Signal.initializeConnection connID] =
      ⟨{ conn with
          acceptingConn := some ⟨true, connID, remoteID, some fn⟩
          isStreaming := true, acceptReturned := true
          startStreaming := some ⟨true, connID, remoteID, some fn⟩ },
        [Event.callback fn none (some e), Event.stopHandling,
          Event.callback fn (some ⟨remoteID⟩) none], none⟩ := by
  simp [HandleConnection, handleSignal, connImpl.acceptReply, connImpl.acceptReturn,
    InitializeConnection, afterHandleConnection, callStartStreaming]

/-- C18, as stated, fails: on a fresh incoming connection an `Accept(fn)` for which `net.Dial`
fails returns the error of `net.Dial` but leaves the connection handled, with `fn` stored; a
`Reject` after it returns "connection already handled" and sends nothing, and when the `Accept`
was made by a handler the loop over the handlers is not followed by a `rejectConnection`
request. -/
theorem C18_counterexample :
    (incomingConnection.Accept (freshIncoming c1 bob) 7 (some ⟨"connection refused"⟩)).err =
      some ⟨"connection refused"⟩ ∧
    (incomingConnection.Accept (freshIncoming c1 bob) 7 (some ⟨"connection refused"⟩)).incConn =
      { isHandled := true, connID := c1, remoteID := bob, acceptCallback := some 7 } ∧
    (incomingConnection.Reject
      (incomingConnection.Accept (freshIncoming c1 bob) 7
        (some ⟨"connection refused"⟩)).incConn).err =
      some (errors_New "connection already handled") ∧
    (incomingConnection.Reject
      (incomingConnection.Accept (freshIncoming c1 bob) 7
        (some ⟨"connection refused"⟩)).incConn).events = [] ∧
    (IncomingConnection c1 0 bob
      { connImpl.fresh with
        publicID := alice
        incConnFns := [⟨1, HandlerProg.accept 7 (fun _ => HandlerProg.ret)⟩] }
      (some ⟨"connection refused"⟩)).events =
      [Event.handler 1, Event.newConnection (some ⟨"connection refused"⟩)] := by
  refine ⟨rfl, rfl, rfl, rfl, rfl⟩

/-- C18 (amended): on an incoming connection that is not handled, an `Accept(fn)` for which the
opening of the new session fails with error `e` returns `e`, opens no session and sends no
request, and leaves the connection handled with `fn` stored as accept callback, the other fields
as they were; an `Accept` or a `Reject` after it returns "connection already handled", changes
nothing and sends nothing. -/
theorem C18_failed_accept_marks_handled (conn : incomingConnection) (fn fn2 : CbId)
    (e : GoError) (dial2 : Option GoError) (hfree : conn.isHandled = false) :
    incomingConnection.Accept conn fn (some e) =
      ⟨{ conn with acceptCallback := some fn, isHandled := true }, some e,
        [Event.newConnection (some e)], none⟩ ∧
    incomingConnection.Reject (incomingConnection.Accept conn fn (some e)).incConn =
      ⟨{ conn with acceptCallback := some fn, isHandled := true },
        some (errors_New "connection already handled"), []⟩ ∧
    incomingConnection.Accept (incomingConnection.Accept conn fn (some e)).incConn fn2 dial2 =
      ⟨{ conn with acceptCallback := some fn, isHandled := true },
        some (errors_New "connection already handled"), [], none⟩ := by
  simp [incomingConnection.Accept, incomingConnection.Reject, hfree, NewConnection]

theorem C18_failed_accept_marks_handled_witness :
    (freshIncoming c1 bob).isHandled = false ∧
    incomingConnection.Accept (freshIncoming c1 bob) 7 (some ⟨"connection refused"⟩) =
      ⟨{ isHandled := true, connID := c1, remoteID := bob, acceptCallback := some 7 },
        some ⟨"connection refused"⟩, [Event.newConnection (some ⟨"connection refused"⟩)],
        none⟩ :=
  ⟨rfl, (C18_failed_accept_marks_handled (freshIncoming c1 bob) 7 8 ⟨"connection refused"⟩
    none rfl).1⟩

/-- C19 (the code departs from the claim): on a session that has no accepting connection,
`InitializeConnection(connID)` and `ErrorConnection(connID, msg)` read `connID` through the nil
pointer `conn.acceptingConn` and panic; no callback is called and no field is changed before
the panic. -/
theorem C19_no_accepting_connection_panics (conn : connImpl) (connID : Bytes) (msg : String) :
    InitializeConnection connID { conn with acceptingConn := none } =
      ⟨{ conn with acceptingConn := none }, [], some "nil pointer dereference"⟩ ∧
    ErrorConnection connID msg { conn with acceptingConn := none } =
      ⟨{ conn with acceptingConn := none }, [], some "nil pointer dereference"⟩ ∧
    (InitializeConnection connID connImpl.fresh).panic = some "nil pointer dereference" ∧
    (ErrorConnection connID msg connImpl.fresh).panic = some "nil pointer dereference" := by
  refine ⟨rfl, rfl, rfl, rfl⟩

end Gonuntius
